import Mathlib

/-!
Shallow embedding of the chimera-dash backtest core: the direct backtest
script's performance calculator and trade-lifecycle detection, the
BotRegistry run-status reads, the SessionRegistry session writes, the
session-aggregate bookkeeping of the orchestrator loop, its dedup retry
loop, its pause/stop polling, and its top-level failure handler.

JavaScript numbers are modelled as rationals (ℚ).  The one infinite value
the code can reach, the `-Infinity` initialiser of `bestProfit`, is
modelled as `none` in an `Option ℚ`.  Fallible storage calls are modelled
by explicit outcome types; functions that can throw return `Except`.
-/

namespace Chimera

/-- A closed round trip, as in the script's `Trade` interface. -/
structure Trade where
  entryTimestamp : ℚ
  entryPrice : ℚ
  entrySize : ℚ
  exitTimestamp : ℚ
  exitPrice : ℚ
  exitSize : ℚ
  realizedPnl : ℚ
deriving DecidableEq

/-- The position snapshot the simulation engine reports after each step
(the fields the script reads: `size`, `entryPrice`, `realizedPnl`). -/
structure PositionSnapshot where
  size : ℚ
  entryPrice : ℚ
  realizedPnl : ℚ
deriving DecidableEq

/-- The open-position argument the script passes to `computePerformance`
when a position survives to the end of the data. -/
structure OpenPosition where
  entryPrice : ℚ
  entryTimestamp : ℚ
  size : ℚ
  currentPrice : ℚ
  currentTimestamp : ℚ
deriving DecidableEq

/-- JavaScript `x || 1`: substitute 1 for a zero denominator. -/
def orOne (q : ℚ) : ℚ := if q = 0 then 1 else q

/-- Accumulator of `computePerformance`'s for-loop over trades. -/
structure PerfAcc where
  equity : ℚ
  peak : ℚ
  maxDrawdown : ℚ
  wins : ℕ
  losses : ℕ
  returns : List ℚ
  totalProfit : ℚ
deriving DecidableEq

/-- One iteration of the trade loop in `computePerformance`. -/
def perfStep (acc : PerfAcc) (t : Trade) : PerfAcc :=
  let equity := acc.equity + t.realizedPnl
  let peak := if equity > acc.peak then equity else acc.peak
  let drawdown := (peak - equity) / orOne peak
  { equity := equity
    peak := peak
    maxDrawdown := if drawdown > acc.maxDrawdown then drawdown else acc.maxDrawdown
    wins := if t.realizedPnl > 0 then acc.wins + 1 else acc.wins
    losses := if t.realizedPnl > 0 then acc.losses else acc.losses + 1
    returns := acc.returns ++ [t.realizedPnl / orOne (t.entrySize * t.entryPrice)]
    totalProfit := acc.totalProfit + t.realizedPnl }

/-- The trade loop of `computePerformance`. -/
def perfFold (acc : PerfAcc) : List Trade → PerfAcc
  | [] => acc
  | t :: ts => perfFold (perfStep acc t) ts

/-- Result record of `computePerformance`.  The script also returns
`sharpe = mean(returns)/std(returns)`; that needs a real square root, no
claim mentions its value, and the `returns` series it is computed from is
carried here in full. -/
structure Perf where
  profit : ℚ
  maxDrawdown : ℚ
  winRate : ℚ
  numTrades : ℕ
  wins : ℕ
  losses : ℕ
  returns : List ℚ
  trades : List Trade
deriving DecidableEq

/-- The script's `computePerformance(trades, initialBalance,
finalQuoteBalance, openPosition?)`: equity starts at the final quote
balance and re-accumulates each trade's `realizedPnl`; the peak starts at
the initial balance; an open position contributes its marked-to-current
unrealized PnL to the return series and the equity but not to the
trade counters. -/
def computePerformance (trades : List Trade) (initialBalance finalQuoteBalance : ℚ)
    (openPosition : Option OpenPosition) : Perf :=
  let acc0 : PerfAcc :=
    { equity := finalQuoteBalance, peak := initialBalance, maxDrawdown := 0
      wins := 0, losses := 0, returns := [], totalProfit := 0 }
  let acc := perfFold acc0 trades
  let numTrades := trades.length
  let post :=
    match openPosition with
    | some p =>
        if p.size ≠ 0 then
          let unrealizedPnl := (p.currentPrice - p.entryPrice) * p.size
          (acc.equity + unrealizedPnl,
           acc.returns ++ [unrealizedPnl / orOne (p.size * p.entryPrice)])
        else (acc.equity, acc.returns)
    | none => (acc.equity, acc.returns)
  { profit := post.1 - initialBalance
    maxDrawdown := acc.maxDrawdown
    winRate := if numTrades > 0 then (acc.wins : ℚ) / (numTrades : ℚ) else 0
    numTrades := numTrades
    wins := acc.wins
    losses := acc.losses
    returns := post.2
    trades := trades }

/-! ## Trade-lifecycle detection

The script threads `prevPosition` and `openTrade` through the candle loop
and appends to `this.trades` on close transitions. -/

/-- One simulated step as seen by the trade-tracking logic: the candle's
timestamp and close, and the engine's position snapshot after trading. -/
structure SimStep where
  timestamp : ℚ
  close : ℚ
  pos : PositionSnapshot
deriving DecidableEq

/-- `Math.sign` on a rational. -/
def jsign (q : ℚ) : ℤ := if q > 0 then 1 else if q < 0 then -1 else 0

/-- The trade-tracking state of the simulation loop. -/
structure DetectState where
  prevPos : PositionSnapshot
  prevEntryTimestamp : ℚ
  openTrade : Option Trade
  trades : List Trade
deriving DecidableEq

/-- A freshly opened trade record, from the current snapshot. -/
def newOpenTrade (step : SimStep) : Trade :=
  { entryTimestamp := step.timestamp, entryPrice := step.pos.entryPrice
    entrySize := step.pos.size, exitTimestamp := 0, exitPrice := 0
    exitSize := 0, realizedPnl := 0 }

/-- Closing an open trade at the current step: exit from the current
candle, exit size from the previous snapshot, realized PnL as the delta of
the running realized-PnL field. -/
def closeTrade (t : Trade) (step : SimStep) (p c : PositionSnapshot) : Trade :=
  { t with exitTimestamp := step.timestamp, exitPrice := step.close
           exitSize := p.size, realizedPnl := c.realizedPnl - p.realizedPnl }

/-- One step of the script's trade-tracking if/else-if chain.  The second
branch (plain close) requires an open trade; when a sign change is seen
with no open trade, the reversal branch still opens a new trade from the
current snapshot, exactly as the source's `if (openTrade)` guard allows. -/
def detectStep (st : DetectState) (step : SimStep) : DetectState :=
  let p := st.prevPos
  let c := step.pos
  let base : DetectState :=
    { st with prevPos := c, prevEntryTimestamp := step.timestamp }
  if p.size = 0 ∧ c.size ≠ 0 then
    { base with openTrade := some (newOpenTrade step) }
  else
    match st.openTrade with
    | some t =>
        if p.size ≠ 0 ∧ c.size = 0 then
          { base with trades := st.trades ++ [closeTrade t step p c], openTrade := none }
        else if p.size ≠ 0 ∧ jsign p.size ≠ jsign c.size then
          { base with trades := st.trades ++ [closeTrade t step p c]
                      openTrade := some (newOpenTrade step) }
        else base
    | none =>
        if p.size ≠ 0 ∧ jsign p.size ≠ jsign c.size then
          { base with openTrade := some (newOpenTrade step) }
        else base

/-- Initial trade-tracking state of a run. -/
def initDetectState : DetectState :=
  { prevPos := { size := 0, entryPrice := 0, realizedPnl := 0 }
    prevEntryTimestamp := 0, openTrade := none, trades := [] }

/-- The whole simulation loop's trade tracking. -/
def runDetector (steps : List SimStep) : DetectState :=
  steps.foldl detectStep initDetectState

/-- The end-of-data block: if the final position is non-zero and a trade
is open, close it synthetically at the last candle's timestamp and close,
append it to the trade list, and report the open-position snapshot. -/
def flushOpen (st : DetectState) (finalPos : PositionSnapshot) (lastTs lastClose : ℚ) :
    List Trade × Option OpenPosition :=
  match st.openTrade with
  | some t =>
      if finalPos.size ≠ 0 then
        let closed : Trade :=
          { t with exitTimestamp := lastTs, exitPrice := lastClose
                   exitSize := finalPos.size
                   realizedPnl := finalPos.realizedPnl - st.prevPos.realizedPnl }
        (st.trades ++ [closed],
         some { entryPrice := t.entryPrice, entryTimestamp := t.entryTimestamp
                size := t.entrySize, currentPrice := lastClose
                currentTimestamp := lastTs })
      else (st.trades, none)
  | none => (st.trades, none)

/-- Detector plus end-of-data flush, as the script composes them: the
final position the script re-reads after the loop is the last step's
snapshot (zero when there are no steps, matching a fresh market). -/
def detectAndFlush (steps : List SimStep) (lastTs lastClose : ℚ) :
    List Trade × Option OpenPosition :=
  let st := runDetector steps
  let finalPos :=
    (steps.getLast?.map SimStep.pos).getD { size := 0, entryPrice := 0, realizedPnl := 0 }
  flushOpen st finalPos lastTs lastClose

/-- A full run's performance as the script computes it: detect trades,
flush any open position, then reduce with `computePerformance`. -/
def runPerformance (steps : List SimStep) (lastTs lastClose initialBalance finalQuoteBalance : ℚ) :
    Perf :=
  let r := detectAndFlush steps lastTs lastClose
  computePerformance r.1 initialBalance finalQuoteBalance r.2

/-! ## BotRegistry: run-status reads -/

/-- Status of a backtest run as `checkBacktestRunStatus` reports it. -/
inductive BacktestRunStatus
  | completed
  | running
  | failed
  | not_found
deriving DecidableEq

/-- A stored run record's fields that `checkBacktestRunStatus` inspects.
The `status` field's type admits no falsy value, as in the TypeScript
record type. -/
structure StoredRunRecord where
  status : BacktestRunStatus
  botId : String
  configHash : String
deriving DecidableEq

/-- Outcome of a `driver.get` call: a record, a miss, or a thrown error. -/
inductive GetOutcome
  | found (record : StoredRunRecord)
  | absent
  | threw
deriving DecidableEq

/-- JavaScript truthiness of the optional `ctx.configHash`: both a
missing hash and an empty string are falsy. -/
def truthyHash : Option String → Option String
  | none => none
  | some s => if s = "" then none else some s

/-- `BotRegistry.checkBacktestRunStatus`: throws when the context carries
no (truthy) configHash; otherwise a driver miss, a driver error, or an
invalid/mismatched record all degrade to `not_found`. -/
def checkBacktestRunStatus (configHash : Option String) (driverGet : GetOutcome) :
    Except String (BacktestRunStatus × Option StoredRunRecord) :=
  match truthyHash configHash with
  | none => Except.error "configHash required in BacktestContext"
  | some h =>
      match driverGet with
      | GetOutcome.absent => Except.ok (BacktestRunStatus.not_found, none)
      | GetOutcome.threw => Except.ok (BacktestRunStatus.not_found, none)
      | GetOutcome.found r =>
          if r.botId ≠ "" ∧ r.configHash = h then Except.ok (r.status, some r)
          else Except.ok (BacktestRunStatus.not_found, none)

/-! ## SessionRegistry -/

/-- Session status values. -/
inductive SessionStatus
  | running
  | paused
  | completed
  | failed
  | stopped
deriving DecidableEq

/-- The `SessionSummary` record.  `bestProfit` is an `Option ℚ`, `none`
standing for the `-Infinity` the orchestrator initialises it with. -/
structure SessionSummary where
  symbol : String
  timeframe : String
  startTimestamp : ℚ
  endTimestamp : ℚ
  runCount : ℕ
  lastConfigHash : String
  lastUpdate : ℚ
  bestProfit : Option ℚ
  bestConfigHash : String
  currentProfit : ℚ
  currentStatus : SessionStatus
  avgProfit : ℚ
  errorCount : ℕ
  completedRuns : ℕ
  active : Bool
  notes : String
deriving DecidableEq

/-- The backtest context fields that name a session. -/
structure SessionCtx where
  symbol : String
  timeframe : String
  startTimestamp : ℚ
  endTimestamp : ℚ
deriving DecidableEq

/-- The session key, `bot_registry:session_current:{symbol}:{timeframe}:
{start}:{end}`, as documented in the repository's data-model notes for
`ContextKeyBuilder.sessionKey`. -/
def sessionKey (ctx : SessionCtx) : String :=
  "bot_registry:session_current:" ++ ctx.symbol ++ ":" ++ ctx.timeframe ++ ":"
    ++ toString ctx.startTimestamp ++ ":" ++ toString ctx.endTimestamp

/-- Outcome of a `driver.set` call: success, a reported failure, or a
thrown error. -/
inductive SetOutcome
  | success
  | reportedFailure
  | threw
deriving DecidableEq

/-- `SessionRegistry.updateSession`: builds the session key, attempts the
driver write, and converts both a reported failure and a thrown error into
a `false` return.  Total: no outcome escapes as an exception. -/
def updateSession (ctx : SessionCtx) (summary : SessionSummary)
    (driverSet : String → SessionSummary → SetOutcome) : Bool :=
  match driverSet (sessionKey ctx) summary with
  | SetOutcome.success => true
  | SetOutcome.reportedFailure => false
  | SetOutcome.threw => false

/-! ## Orchestrator loop: session aggregates -/

/-- The orchestrator's mutable aggregates across loop iterations.
`bestConfigHash` is `none` while `bestConfig` is still `null`. -/
structure LoopState where
  runCount : ℕ
  totalProfit : ℚ
  bestProfit : Option ℚ
  bestConfigHash : Option String
deriving DecidableEq

/-- The aggregates at loop start: `runCount = 0`, `totalProfit = 0`,
`bestProfit = -Infinity`, `bestConfig = null`. -/
def initLoopState : LoopState :=
  { runCount := 0, totalProfit := 0, bestProfit := none, bestConfigHash := none }

/-- One loop iteration's observable event: either the dedup retry bound
was exhausted and the iteration was skipped, or a run completed with the
given profit under the given configHash. -/
inductive IterEvent
  | skipped
  | completed (profit : ℚ) (configHash : String)
deriving DecidableEq

/-- The `SessionSummary` the orchestrator builds after a completed run,
before it updates `totalProfit`/`bestProfit`: `runCount` was already
incremented at the top of the iteration, `avgProfit` divides the
pre-update `totalProfit` by the new count, and `bestProfit` and
`bestConfigHash` are the pre-update values (the current hash standing in
while `bestConfig` is still `null`). -/
def iterationSummary (ctx : SessionCtx) (now : ℚ) (st : LoopState)
    (profit : ℚ) (configHash : String) : SessionSummary :=
  { symbol := ctx.symbol
    timeframe := ctx.timeframe
    startTimestamp := ctx.startTimestamp
    endTimestamp := ctx.endTimestamp
    runCount := st.runCount + 1
    lastConfigHash := configHash
    lastUpdate := now
    bestProfit := st.bestProfit
    bestConfigHash := st.bestConfigHash.getD configHash
    currentProfit := profit
    currentStatus := SessionStatus.running
    avgProfit := st.totalProfit / (st.runCount + 1 : ℕ)
    errorCount := 0
    completedRuns := st.runCount + 1
    active := true
    notes := "" }

/-- The aggregate update after a completed run: `runCount` was bumped at
the top of the iteration; then `totalProfit += profit` and the best run is
replaced only on a strict improvement. -/
def completeRunState (st : LoopState) (profit : ℚ) (configHash : String) : LoopState :=
  { runCount := st.runCount + 1
    totalProfit := st.totalProfit + profit
    bestProfit :=
      match st.bestProfit with
      | none => some profit
      | some b => if b < profit then some profit else some b
    bestConfigHash :=
      match st.bestProfit with
      | none => some configHash
      | some b => if b < profit then some configHash else st.bestConfigHash }

/-- One orchestrator iteration: a skipped iteration still increments
`runCount` (the `continue` sits after `runCount++`) and writes no summary;
a completed run writes the summary built from the pre-update aggregates
and then updates them. -/
def loopIteration (ctx : SessionCtx) (now : ℚ) (st : LoopState) :
    IterEvent → LoopState × Option SessionSummary
  | IterEvent.skipped => ({ st with runCount := st.runCount + 1 }, none)
  | IterEvent.completed p h =>
      (completeRunState st p h, some (iterationSummary ctx now st p h))

/-- The orchestrator loop over a finite sequence of iteration events
(each paired with the `Date.now()` of its summary write), collecting the
summaries passed to `SessionRegistry.updateSession`. -/
def runSequence (ctx : SessionCtx) (st : LoopState) :
    List (IterEvent × ℚ) → LoopState × List SessionSummary
  | [] => (st, [])
  | (ev, now) :: rest =>
      let r := loopIteration ctx now st ev
      let rec' := runSequence ctx r.1 rest
      (rec'.1, r.2.toList ++ rec'.2)

/-! ## Orchestrator loop: dedup retry bound -/

/-- The do-while dedup loop: generate candidate number `attempts` (its
status given by `statuses`), increment the attempt counter, and repeat
while the candidate is not unique and fewer than 10 attempts were made.
Returns the number of generated candidates and whether the last one was
unique. -/
def dedupLoop (statuses : ℕ → BacktestRunStatus) (attempts : ℕ) : ℕ × Bool :=
  let isUnique := statuses attempts = BacktestRunStatus.not_found
  if isUnique then (attempts + 1, true)
  else if h : attempts + 1 < 10 then dedupLoop statuses (attempts + 1)
  else (attempts + 1, false)
termination_by 10 - attempts
decreasing_by omega

/-- The dedup phase of one iteration, starting at zero attempts. -/
def dedupResult (statuses : ℕ → BacktestRunStatus) : ℕ × Bool :=
  dedupLoop statuses 0

/-- What the iteration does after the dedup phase: proceed to a run, or
log and `continue` to the next iteration. -/
inductive IterAction
  | runBacktest
  | skipAndContinue
deriving DecidableEq

/-- The branch on `isUnique` right after the dedup loop. -/
def dedupAction (statuses : ℕ → BacktestRunStatus) : IterAction :=
  if (dedupResult statuses).2 then IterAction.runBacktest else IterAction.skipAndContinue

/-! ## Orchestrator loop: pause/stop polling -/

/-- The poll interval of the pause loop, in milliseconds. -/
def pollIntervalMs : ℕ := 2000

/-- The end-of-iteration control check, over the finite sequence of
session fetch results it will observe: while the fetch yields a `paused`
summary, sleep `pollIntervalMs` and re-fetch; at the first other result,
break the outer loop only when it is `stopped`.  Returns `none` when every
observed fetch was `paused` (still polling, no new run started), otherwise
`some (stop, msSlept)`. -/
def pollControl : List (Option SessionStatus) → Option (Bool × ℕ)
  | [] => none
  | f :: rest =>
      if f = some SessionStatus.paused then
        match pollControl rest with
        | none => none
        | some r => some (r.1, r.2 + pollIntervalMs)
      else
        some (decide (f = some SessionStatus.stopped), 0)

/-! ## Top-level failure handler -/

/-- The partial summary the catch block writes: `failed`, inactive, and
the error message in `notes`. -/
structure FailurePatch where
  currentStatus : SessionStatus
  lastUpdate : ℚ
  active : Bool
  notes : String
deriving DecidableEq

/-- The `failedSessionSummary` the catch block builds. -/
def failedSessionSummary (now : ℚ) (errMsg : String) : FailurePatch :=
  { currentStatus := SessionStatus.failed
    lastUpdate := now
    active := false
    notes := "Script failed: " ++ errMsg }

/-- The context the catch block writes under: the input symbol and
timeframe with both timestamps zeroed (the candle timestamps are out of
scope in the catch). -/
def failureWriteCtx (symbol timeframe : String) : SessionCtx :=
  { symbol := symbol, timeframe := timeframe, startTimestamp := 0, endTimestamp := 0 }

/-- What the catch handler returns to the script runner. -/
structure ScriptFailureResult where
  success : Bool
  message : String
  written : Option FailurePatch
deriving DecidableEq

/-- The catch block of `executeScript`: build the failure patch, attempt
the session write inside an inner try whose catch swallows everything,
and return a failure result carrying the error message.  Total in the
write outcome: no outcome re-raises. -/
def handleScriptFailure (now : ℚ) (errMsg : String) (writeOutcome : SetOutcome) :
    ScriptFailureResult :=
  let patch := failedSessionSummary now errMsg
  { success := false
    message := "Script execution failed: " ++ errMsg
    written := if writeOutcome = SetOutcome.success then some patch else none }

/-! ## Helper functions for the statements -/

/-- Sum of the trades' realized PnL fields. -/
def sumPnl (trades : List Trade) : ℚ := (trades.map Trade.realizedPnl).sum

/-- The open-position contribution to the final equity in
`computePerformance`. -/
def openContrib : Option OpenPosition → ℚ
  | none => 0
  | some p => if p.size = 0 then 0 else (p.currentPrice - p.entryPrice) * p.size

/-- The best-profit update of one completed run, on the `-Infinity`-capable
profit values: a strict improvement replaces the best. -/
def bstep (b : Option ℚ) (p : ℚ) : Option ℚ :=
  match b with
  | none => some p
  | some b0 => if b0 < p then some p else some b0

/-- The running best of a profit sequence, starting from `-Infinity`. -/
def runningBest (l : List ℚ) : Option ℚ := l.foldl bstep none

/-- Order on `-Infinity`-capable profit values (`none` is the bottom). -/
def obLE : Option ℚ → Option ℚ → Prop
  | none, _ => True
  | some _, none => False
  | some a, some b => a ≤ b

/-- A completed-runs-only event sequence for the orchestrator loop, each
run given by its profit and configHash (summary write times set to 0). -/
def completedEvents (runs : List (ℚ × String)) : List (IterEvent × ℚ) :=
  runs.map (fun r => (IterEvent.completed r.1 r.2, 0))

/-- The profits of a run sequence. -/
def profitsOf (runs : List (ℚ × String)) : List ℚ := runs.map Prod.fst

/-- The orchestrator aggregates after a sequence of completed runs. -/
def stateAfter (st : LoopState) (runs : List (ℚ × String)) : LoopState :=
  runs.foldl (fun s r => completeRunState s r.1 r.2) st

/-! ## Concrete inputs of the claims -/

/-- The spec's round-number example trades: realized PnLs 100 and -50. -/
def c1Trades : List Trade :=
  [ { entryTimestamp := 1, entryPrice := 100, entrySize := 1, exitTimestamp := 2,
      exitPrice := 110, exitSize := 1, realizedPnl := 100 },
    { entryTimestamp := 3, entryPrice := 100, entrySize := 1, exitTimestamp := 4,
      exitPrice := 95, exitSize := 1, realizedPnl := -50 } ]

/-- A run whose single position is still open at the end of the data:
flat at step 0, long 5 from step 1 to the final candle. -/
def c3Steps : List SimStep :=
  [ { timestamp := 0, close := 100, pos := { size := 0, entryPrice := 0, realizedPnl := 0 } },
    { timestamp := 1, close := 110, pos := { size := 5, entryPrice := 100, realizedPnl := 0 } } ]

/-- The spec's detection example: sizes `[0, +5, +5, 0]` at timestamps
`[0, 1, 2, 3]`, entry price 100, running realized PnL 37 at the close. -/
def c5Steps : List SimStep :=
  [ { timestamp := 0, close := 100, pos := { size := 0, entryPrice := 0, realizedPnl := 0 } },
    { timestamp := 1, close := 100, pos := { size := 5, entryPrice := 100, realizedPnl := 0 } },
    { timestamp := 2, close := 105, pos := { size := 5, entryPrice := 100, realizedPnl := 0 } },
    { timestamp := 3, close := 95, pos := { size := 0, entryPrice := 0, realizedPnl := 37 } } ]

/-- The spec's reversal example: sizes `[0, +5, -3]`. -/
def c6Steps : List SimStep :=
  [ { timestamp := 0, close := 100, pos := { size := 0, entryPrice := 0, realizedPnl := 0 } },
    { timestamp := 1, close := 100, pos := { size := 5, entryPrice := 100, realizedPnl := 0 } },
    { timestamp := 2, close := 98, pos := { size := -3, entryPrice := 102, realizedPnl := -10 } } ]

/-- A concrete session context. -/
def c2Ctx : SessionCtx :=
  { symbol := "BTC/USDT", timeframe := "1h", startTimestamp := 0, endTimestamp := 100 }

/-- The opening step of the detection example: long 5 at timestamp 1. -/
def c5OpenStep : SimStep :=
  { timestamp := 1, close := 100, pos := { size := 5, entryPrice := 100, realizedPnl := 0 } }

/-- The holding step of the detection example: still long 5. -/
def c5HoldStep : SimStep :=
  { timestamp := 2, close := 105, pos := { size := 5, entryPrice := 100, realizedPnl := 0 } }

/-- The closing step of the detection example: flat again, running
realized PnL 37. -/
def c5CloseStep : SimStep :=
  { timestamp := 3, close := 95, pos := { size := 0, entryPrice := 0, realizedPnl := 37 } }

/-- A detector state holding the open long-5 trade of the example. -/
def c5StateOpen : DetectState :=
  { prevPos := { size := 5, entryPrice := 100, realizedPnl := 0 }
    prevEntryTimestamp := 1, openTrade := some (newOpenTrade c5OpenStep), trades := [] }

/-- The reversal step of the reversal example: short 3 at timestamp 2. -/
def c6FlipStep : SimStep :=
  { timestamp := 2, close := 98, pos := { size := -3, entryPrice := 102, realizedPnl := -10 } }

/-- A loop state with a best run already recorded: one run of profit 10
under configHash `"a"`. -/
def c2BestState : LoopState :=
  { runCount := 1, totalProfit := 10, bestProfit := some 10, bestConfigHash := some "a" }

/-- The synthesized close the flush builds from an open trade: the final
candle's timestamp and close, the final position's size, and the delta of
the running realized-PnL field against the loop's last snapshot. -/
def synthClose (t : Trade) (finalPos prevPos : PositionSnapshot) (lastTs lastClose : ℚ) :
    Trade :=
  { t with exitTimestamp := lastTs, exitPrice := lastClose, exitSize := finalPos.size
           realizedPnl := finalPos.realizedPnl - prevPos.realizedPnl }

/-! ## Helper lemmas -/

theorem perfStep_equity (acc : PerfAcc) (t : Trade) :
    (perfStep acc t).equity = acc.equity + t.realizedPnl := by
  simp [perfStep]

theorem perfFold_equity (ts : List Trade) :
    ∀ acc : PerfAcc, (perfFold acc ts).equity = acc.equity + sumPnl ts := by
  induction ts with
  | nil => intro acc; simp [perfFold, sumPnl]
  | cons t ts ih =>
      intro acc
      simp only [perfFold, ih, perfStep_equity, sumPnl, List.map_cons, List.sum_cons]
      ring

theorem perfStep_wins (acc : PerfAcc) (t : Trade) :
    (perfStep acc t).wins = if t.realizedPnl > 0 then acc.wins + 1 else acc.wins := by
  simp [perfStep]

theorem completeRunState_bestProfit (st : LoopState) (p : ℚ) (h : String) :
    (completeRunState st p h).bestProfit = bstep st.bestProfit p := by
  cases hb : st.bestProfit <;> simp [completeRunState, bstep, hb]

theorem obLE_refl (b : Option ℚ) : obLE b b := by
  cases b <;> simp [obLE]

theorem obLE_trans {a b c : Option ℚ} (h1 : obLE a b) (h2 : obLE b c) : obLE a c := by
  cases a <;> cases b <;> cases c <;> simp_all [obLE]
  linarith

theorem obLE_bstep (b : Option ℚ) (p : ℚ) : obLE b (bstep b p) := by
  cases b with
  | none => simp [obLE]
  | some b0 =>
      by_cases hlt : b0 < p <;> simp [bstep, obLE, hlt]
      exact le_of_lt hlt

/-! ## C1 -/

/-- C1, counterexample: on the spec's round-number input — trades with
realized PnLs 100 and -50, `initialBalance = 1000`,
`finalBalance = 1050` — the code's `computePerformance` returns
`profit = 100`, not the claimed `profit = 50`: equity starts at the final
balance and accumulates every trade's realized PnL again, so the
accumulation does alter the profit. -/
theorem c1_counterexample :
    (computePerformance c1Trades 1000 1050 none).profit = 100 ∧
    (computePerformance c1Trades 1000 1050 none).profit ≠ 50 := by
  constructor <;>
    norm_num [computePerformance, perfFold, perfStep, c1Trades, orOne]

/-- C1, amended: for every trade list, the profit equals the
simulation-reported final balance plus the sum of the trades' realized
PnLs (plus the open position's marked-to-current unrealized PnL, when one
is passed) minus the initial balance; on the round-number input this
gives `profit = 100`, with `winRate = 0.5` and `numTrades = 2` as
claimed. -/
theorem c1_amended :
    (∀ (trades : List Trade) (ib fb : ℚ) (op : Option OpenPosition),
       (computePerformance trades ib fb op).profit =
         fb + sumPnl trades + openContrib op - ib) ∧
    (computePerformance c1Trades 1000 1050 none).profit = 100 ∧
    (computePerformance c1Trades 1000 1050 none).winRate = 1 / 2 ∧
    (computePerformance c1Trades 1000 1050 none).numTrades = 2 := by
  refine ⟨?_,
    by norm_num [computePerformance, perfFold, perfStep, c1Trades, orOne],
    by norm_num [computePerformance, perfFold, perfStep, c1Trades, orOne],
    by norm_num [computePerformance, perfFold, perfStep, c1Trades, orOne]⟩
  intro trades ib fb op
  cases op with
  | none =>
      simp only [computePerformance, openContrib, perfFold_equity]
      ring
  | some p =>
      by_cases hz : p.size = 0
      · simp only [computePerformance, openContrib, perfFold_equity, hz, ne_eq,
          not_true_eq_false, ite_true, ite_false, eq_self_iff_true]
        ring
      · simp only [computePerformance, openContrib, perfFold_equity, hz, ne_eq,
          not_false_eq_true, ite_true, ite_false, eq_self_iff_true]
        try ring

/-! ## C7 -/

/-- C7, counterexample: `checkBacktestRunStatus` throws on a context that
carries no configHash, so it is not exception-free for every context. -/
theorem c7_counterexample :
    checkBacktestRunStatus none GetOutcome.absent =
      Except.error "configHash required in BacktestContext" := by
  rfl

/-- C7, amended: for every context whose configHash is present and
non-empty, `checkBacktestRunStatus` never throws, and it returns
`not_found` when the record is absent, when the storage read fails, and
when the stored configHash does not match the requested one. -/
theorem c7_amended :
    ∀ (h : String) (g : GetOutcome), h ≠ "" →
      (∀ e, checkBacktestRunStatus (some h) g ≠ Except.error e) ∧
      (g = GetOutcome.absent →
        checkBacktestRunStatus (some h) g = Except.ok (BacktestRunStatus.not_found, none)) ∧
      (g = GetOutcome.threw →
        checkBacktestRunStatus (some h) g = Except.ok (BacktestRunStatus.not_found, none)) ∧
      (∀ r, g = GetOutcome.found r → r.configHash ≠ h →
        checkBacktestRunStatus (some h) g = Except.ok (BacktestRunStatus.not_found, none)) := by
  intro h g hne
  have hth : truthyHash (some h) = some h := by simp [truthyHash, hne]
  refine ⟨?_, ?_, ?_, ?_⟩
  · intro e hcontra
    cases g with
    | absent => simp [checkBacktestRunStatus, hth] at hcontra
    | threw => simp [checkBacktestRunStatus, hth] at hcontra
    | found r =>
        by_cases hv : r.botId ≠ "" ∧ r.configHash = h <;>
          simp [checkBacktestRunStatus, hth, hv] at hcontra
  · intro hg; subst hg; simp [checkBacktestRunStatus, hth]
  · intro hg; subst hg; simp [checkBacktestRunStatus, hth]
  · intro r hg hmis; subst hg
    have hv : ¬ (r.botId ≠ "" ∧ r.configHash = h) := by
      intro hc; exact hmis hc.2
    simp [checkBacktestRunStatus, hth, hv]

/-- C7 witness: a storage read that throws, under configHash `"abc"`,
degrades to `not_found`. -/
theorem c7_witness :
    checkBacktestRunStatus (some "abc") GetOutcome.threw =
      Except.ok (BacktestRunStatus.not_found, none) :=
  (c7_amended "abc" GetOutcome.threw (by decide)).2.2.1 rfl

/-! ## C8 -/

/-- C8, counterexample: the catch block's final write targets the context
`(symbol, timeframe, 0, 0)`, whose key differs from the running session's
key whenever the session's candle timestamps are non-zero, so the write
does not mark the session's own `SessionSummary`. -/
theorem c8_counterexample :
    sessionKey (failureWriteCtx "BTC/USDT" "1h") ≠
      sessionKey { symbol := "BTC/USDT", timeframe := "1h",
                   startTimestamp := 1710000000, endTimestamp := 1710100000 } := by
  decide

/-- C8, amended: an unexpected exception aborts the orchestrator, which
returns a failure result and performs one best-effort write of a summary
patch with `currentStatus = failed`, `active = false` and the error
message in `notes`, keyed by the session's symbol and timeframe with both
timestamps zeroed; the result is the same for every write outcome, so a
failing (or throwing) final write is swallowed, never re-raised. -/
theorem c8_failure_handling :
    ∀ (now : ℚ) (msg : String) (o : SetOutcome),
      (handleScriptFailure now msg o).success = false ∧
      (handleScriptFailure now msg o).message = "Script execution failed: " ++ msg ∧
      (handleScriptFailure now msg o).written =
        (if o = SetOutcome.success then some (failedSessionSummary now msg) else none) ∧
      (failedSessionSummary now msg).currentStatus = SessionStatus.failed ∧
      (failedSessionSummary now msg).active = false ∧
      (failedSessionSummary now msg).notes = "Script failed: " ++ msg ∧
      (∀ symbol timeframe,
        (failureWriteCtx symbol timeframe).startTimestamp = 0 ∧
        (failureWriteCtx symbol timeframe).endTimestamp = 0) := by
  intro now msg o
  refine ⟨rfl, rfl, rfl, rfl, rfl, rfl, ?_⟩
  intro symbol timeframe
  exact ⟨rfl, rfl⟩

/-! ## C4 -/

theorem dedupLoop_collide (statuses : ℕ → BacktestRunStatus)
    (hcol : ∀ i, i < 10 → statuses i ≠ BacktestRunStatus.not_found) :
    ∀ n a, 10 - a = n → a < 10 → dedupLoop statuses a = (10, false) := by
  intro n
  induction n with
  | zero => intro a hn ha; omega
  | succ n ih =>
      intro a hn ha
      rw [dedupLoop]
      simp only [hcol a ha, ite_false, if_neg, dite_eq_ite]
      by_cases hlt : a + 1 < 10
      · rw [if_pos hlt]
        exact ih (a + 1) (by omega) hlt
      · rw [if_neg hlt]
        have : a + 1 = 10 := by omega
        simp [this]

/-- C4: when every one of the first 10 generated candidates collides with
an existing non-`not_found` record, the dedup do-while loop generates
exactly 10 candidates (the attempt counter stops at 10, so no 11th
generation happens), reports no unique configuration, and the iteration's
action is to log and continue the loop rather than fail. -/
theorem c4_dedup_bound :
    ∀ statuses : ℕ → BacktestRunStatus,
      (∀ i, i < 10 → statuses i ≠ BacktestRunStatus.not_found) →
      dedupResult statuses = (10, false) ∧
      dedupAction statuses = IterAction.skipAndContinue := by
  intro statuses hcol
  have h0 : dedupResult statuses = (10, false) :=
    dedupLoop_collide statuses hcol 10 0 rfl (by omega)
  refine ⟨h0, ?_⟩
  simp [dedupAction, h0]

/-- C4 witness: a status function that always reports `running` exhausts
exactly 10 attempts and yields a skip. -/
theorem c4_witness :
    dedupResult (fun _ => BacktestRunStatus.running) = (10, false) ∧
    dedupAction (fun _ => BacktestRunStatus.running) = IterAction.skipAndContinue :=
  c4_dedup_bound (fun _ => BacktestRunStatus.running) (by intro i hi; simp)

/-! ## C9 -/

/-- C9: the end-of-iteration control check, applied to `n` consecutive
`paused` fetches followed by one other result `f`: it never starts a new
run while reading `paused` (over the all-`paused` prefix alone it reaches
no decision), sleeps the fixed 2000ms interval once per `paused` read and
re-fetches, breaks the loop exactly when the first non-`paused` result is
`stopped`, and resumes on any other result, a `null` fetch included. -/
theorem c9_pause_poll :
    ∀ (n : ℕ) (f : Option SessionStatus), f ≠ some SessionStatus.paused →
      pollControl (List.replicate n (some SessionStatus.paused) ++ [f]) =
        some (decide (f = some SessionStatus.stopped), pollIntervalMs * n) ∧
      pollControl (List.replicate n (some SessionStatus.paused)) = none := by
  intro n
  induction n with
  | zero =>
      intro f hf
      constructor
      · simp [pollControl, hf]
      · simp [pollControl]
  | succ n ih =>
      intro f hf
      have h1 := (ih f hf).1
      have h2 := (ih f hf).2
      constructor
      · simp [pollControl, List.replicate_succ, List.cons_append, h1, Nat.mul_succ]
      · simp [pollControl, List.replicate_succ, h2]

/-- C9 witness: two `paused` reads followed by `stopped` end the loop
after 4000ms of sleeping; over the two `paused` reads alone no new run is
started. -/
theorem c9_witness :
    pollControl (List.replicate 2 (some SessionStatus.paused) ++ [some SessionStatus.stopped]) =
      some (true, 4000) ∧
    pollControl (List.replicate 2 (some SessionStatus.paused)) = none := by
  have h := c9_pause_poll 2 (some SessionStatus.stopped) (by decide)
  simpa [pollIntervalMs] using h

/-! ## C5 -/

/-- C5: on the snapshot sequence with sizes `[0, +5, +5, 0]` at
timestamps `[0, 1, 2, 3]` the detector (with the end-of-data flush, a
no-op here) emits exactly one trade, with `entryTimestamp = 1`,
`exitTimestamp = 3` and `entrySize = 5`, its realized PnL the delta 37 of
the running realized-PnL field; and in general a step from zero to
non-zero size opens a trade from the current snapshot's entry
price/timestamp/size, a step that keeps a non-zero size's sign emits no
event and leaves the open trade untouched, and a step from non-zero to
zero size closes the open trade with the realized-PnL delta between the
two snapshots. -/
theorem c5_trade_detection :
    (detectAndFlush c5Steps 3 95).1 =
      [{ entryTimestamp := 1, entryPrice := 100, entrySize := 5,
         exitTimestamp := 3, exitPrice := 95, exitSize := 5, realizedPnl := 37 }] ∧
    (∀ (st : DetectState) (step : SimStep),
       st.prevPos.size = 0 → step.pos.size ≠ 0 →
       (detectStep st step).openTrade = some (newOpenTrade step) ∧
       (detectStep st step).trades = st.trades) ∧
    (∀ (st : DetectState) (step : SimStep),
       st.prevPos.size ≠ 0 → step.pos.size ≠ 0 →
       jsign st.prevPos.size = jsign step.pos.size →
       (detectStep st step).openTrade = st.openTrade ∧
       (detectStep st step).trades = st.trades) ∧
    (∀ (st : DetectState) (step : SimStep) (t : Trade),
       st.openTrade = some t → st.prevPos.size ≠ 0 → step.pos.size = 0 →
       (detectStep st step).trades =
         st.trades ++ [closeTrade t step st.prevPos step.pos] ∧
       (detectStep st step).openTrade = none) := by
  refine ⟨?_, ?_, ?_, ?_⟩
  · norm_num [detectAndFlush, runDetector, detectStep, flushOpen, c5Steps,
      initDetectState, newOpenTrade, closeTrade, jsign]
  · intro st step h1 h2
    constructor <;> simp [detectStep, h1, h2]
  · intro st step h1 h2 hsign
    have hc : ¬ (st.prevPos.size = 0 ∧ step.pos.size ≠ 0) := by
      intro hc; exact h1 hc.1
    have hcl : ¬ (st.prevPos.size ≠ 0 ∧ step.pos.size = 0) := by
      intro hcl; exact h2 hcl.2
    have hrev : ¬ (st.prevPos.size ≠ 0 ∧ jsign st.prevPos.size ≠ jsign step.pos.size) := by
      intro hrev; exact hrev.2 hsign
    cases hot : st.openTrade with
    | none => constructor <;> simp [detectStep, hc, hrev, hot]
    | some t => constructor <;> simp [detectStep, hc, hcl, hrev, hot]
  · intro st step t hot h1 h2
    have hc : ¬ (st.prevPos.size = 0 ∧ step.pos.size ≠ 0) := by
      intro hc; exact h1 hc.1
    constructor <;> simp [detectStep, hc, hot, h1, h2]

/-- C5 witness: the step-level transition facts instantiated at concrete
states — an open at a step of size 5, a no-event hold while the size
stays 5, and a close with realized-PnL delta 37. -/
theorem c5_witness :
    (detectStep initDetectState c5OpenStep).openTrade = some (newOpenTrade c5OpenStep) ∧
    (detectStep c5StateOpen c5HoldStep).trades = [] ∧
    (detectStep c5StateOpen c5CloseStep).openTrade = none := by
  refine ⟨?_, ?_, ?_⟩
  · exact (c5_trade_detection.2.1 initDetectState c5OpenStep
      (by norm_num [initDetectState]) (by norm_num [c5OpenStep])).1
  · exact (c5_trade_detection.2.2.1 c5StateOpen c5HoldStep
      (by norm_num [c5StateOpen]) (by norm_num [c5HoldStep])
      (by norm_num [c5StateOpen, c5HoldStep, jsign])).2
  · exact (c5_trade_detection.2.2.2 c5StateOpen c5CloseStep (newOpenTrade c5OpenStep)
      rfl (by norm_num [c5StateOpen]) (by norm_num [c5CloseStep])).2

/-! ## C6 -/

/-- C6: a step whose previous and current sizes are non-zero with
opposite signs closes the open trade exactly as an ordinary close (exit
price/timestamp from the current step, realized-PnL delta) and
immediately opens a new trade from the current snapshot, both in that
same step; on the snapshot sequence with sizes `[0, +5, -3]` the run
(with its end-of-data flush closing the still-open short) emits exactly
two trades — the `+5` leg closed at the flip step's timestamp 2 and the
`-3` leg opened at that same timestamp. -/
theorem c6_reversal :
    ((detectAndFlush c6Steps 2 98).1 =
      [{ entryTimestamp := 1, entryPrice := 100, entrySize := 5,
         exitTimestamp := 2, exitPrice := 98, exitSize := 5, realizedPnl := -10 },
       { entryTimestamp := 2, entryPrice := 102, entrySize := -3,
         exitTimestamp := 2, exitPrice := 98, exitSize := -3, realizedPnl := 0 }]) ∧
    (∀ (st : DetectState) (step : SimStep) (t : Trade),
       st.openTrade = some t → st.prevPos.size ≠ 0 → step.pos.size ≠ 0 →
       jsign st.prevPos.size ≠ jsign step.pos.size →
       (detectStep st step).trades =
         st.trades ++ [closeTrade t step st.prevPos step.pos] ∧
       (detectStep st step).openTrade = some (newOpenTrade step)) := by
  constructor
  · norm_num [detectAndFlush, runDetector, detectStep, flushOpen, c6Steps,
      initDetectState, newOpenTrade, closeTrade, jsign]
  · intro st step t hot h1 h2 hsign
    have hc : ¬ (st.prevPos.size = 0 ∧ step.pos.size ≠ 0) := by
      intro hc; exact h1 hc.1
    have hcl : ¬ (st.prevPos.size ≠ 0 ∧ step.pos.size = 0) := by
      intro hcl; exact h2 hcl.2
    constructor <;> simp [detectStep, hc, hcl, hot, h1, h2, hsign]

/-- C6 witness: the reversal transition instantiated at a concrete state,
a long 5 flipping to short 3. -/
theorem c6_witness :
    (detectStep c5StateOpen c6FlipStep).openTrade = some (newOpenTrade c6FlipStep) :=
  (c6_reversal.2 c5StateOpen c6FlipStep (newOpenTrade c5OpenStep) rfl
    (by norm_num [c5StateOpen]) (by norm_num [c6FlipStep])
    (by norm_num [c5StateOpen, c6FlipStep, jsign])).2

/-! ## C2 -/

theorem stateAfter_runCount (runs : List (ℚ × String)) :
    ∀ st : LoopState, (stateAfter st runs).runCount = st.runCount + runs.length := by
  induction runs with
  | nil => intro st; rfl
  | cons r rest ih =>
      intro st
      show (stateAfter (completeRunState st r.1 r.2) rest).runCount = _
      rw [ih]
      simp [completeRunState]
      omega

theorem stateAfter_totalProfit (runs : List (ℚ × String)) :
    ∀ st : LoopState,
      (stateAfter st runs).totalProfit = st.totalProfit + (profitsOf runs).sum := by
  induction runs with
  | nil => intro st; simp [stateAfter, profitsOf]
  | cons r rest ih =>
      intro st
      show (stateAfter (completeRunState st r.1 r.2) rest).totalProfit = _
      rw [ih]
      simp [completeRunState, profitsOf]
      ring

theorem stateAfter_bestProfit (runs : List (ℚ × String)) :
    ∀ st : LoopState,
      (stateAfter st runs).bestProfit = (profitsOf runs).foldl bstep st.bestProfit := by
  induction runs with
  | nil => intro st; rfl
  | cons r rest ih =>
      intro st
      show (stateAfter (completeRunState st r.1 r.2) rest).bestProfit = _
      rw [ih, completeRunState_bestProfit]
      simp [profitsOf]

theorem runSequence_completed_getElem (runs : List (ℚ × String)) :
    ∀ (ctx : SessionCtx) (st : LoopState) (i : ℕ) (p : ℚ) (h : String),
      runs[i]? = some (p, h) →
      ((runSequence ctx st (completedEvents runs)).2)[i]? =
        some (iterationSummary ctx 0 (stateAfter st (runs.take i)) p h) := by
  induction runs with
  | nil => intro ctx st i p h hc; simp at hc
  | cons r rest ih =>
      intro ctx st i p h hc
      cases i with
      | zero =>
          simp only [List.getElem?_cons_zero, Option.some.injEq] at hc
          subst hc
          simp [completedEvents, runSequence, loopIteration, stateAfter]
      | succ n =>
          simp only [List.getElem?_cons_succ] at hc
          have := ih ctx (completeRunState st r.1 r.2) n p h hc
          simpa [completedEvents, runSequence, loopIteration, stateAfter] using this

theorem runSequence_mem_bestProfit (events : List (IterEvent × ℚ)) :
    ∀ (ctx : SessionCtx) (st : LoopState) (s : SessionSummary),
      s ∈ (runSequence ctx st events).2 → obLE st.bestProfit s.bestProfit := by
  induction events with
  | nil => intro ctx st s hs; simp [runSequence] at hs
  | cons e rest ih =>
      intro ctx st s hs
      rcases e with ⟨ev, now⟩
      cases ev with
      | skipped =>
          simp only [runSequence, loopIteration, Option.toList_none,
            List.nil_append] at hs
          exact ih ctx { st with runCount := st.runCount + 1 } s hs
      | completed p h =>
          simp only [runSequence, loopIteration, Option.toList_some,
            List.singleton_append, List.mem_cons] at hs
          rcases hs with hs | hs
          · subst hs; exact obLE_refl _
          · exact obLE_trans
              (by rw [completeRunState_bestProfit]; exact obLE_bstep _ _)
              (ih ctx (completeRunState st p h) s hs)

theorem runSequence_pairwise (events : List (IterEvent × ℚ)) :
    ∀ (ctx : SessionCtx) (st : LoopState),
      ((runSequence ctx st events).2).Pairwise
        (fun a b => obLE a.bestProfit b.bestProfit) := by
  induction events with
  | nil => intro ctx st; simp [runSequence]
  | cons e rest ih =>
      intro ctx st
      rcases e with ⟨ev, now⟩
      cases ev with
      | skipped =>
          simpa only [runSequence, loopIteration, Option.toList_none,
            List.nil_append] using ih ctx _
      | completed p h =>
          simp only [runSequence, loopIteration, Option.toList_some,
            List.singleton_append]
          refine List.Pairwise.cons ?_ (ih ctx _)
          intro b hb
          refine obLE_trans ?_ (runSequence_mem_bestProfit rest ctx _ b hb)
          rw [completeRunState_bestProfit]
          exact obLE_bstep _ _

/-- C2, counterexample: with one skipped iteration followed by one
completed run of profit 50, the single summary passed to
`SessionController.update` has `runCount = 2` (the skip also incremented
the counter), `avgProfit = 0` (the division happens before
`totalProfit += profit`) and `bestProfit = -Infinity` (`bestProfit` is
updated only after the summary write) — not the claimed
`runCount = 1`, `avgProfit = 50`, `bestProfit = 50`. -/
theorem c2_counterexample :
    ((runSequence c2Ctx initLoopState
        [(IterEvent.skipped, 0), (IterEvent.completed 50 "h1", 0)]).2.map
      (fun s => (s.runCount, s.avgProfit, s.bestProfit))) = [(2, 0, none)] ∧
    ¬ ((2, (0 : ℚ), (none : Option ℚ)) = (1, 50, some 50)) := by
  constructor
  · norm_num [runSequence, loopIteration, iterationSummary, completeRunState,
      initLoopState]
  · simp

/-- C2, amended: after the `i`-th completed run of a session with no
skipped iterations, the summary passed to `SessionController.update` has
`runCount = completedRuns = i`, `avgProfit` equal to the sum of the
profits of runs `1..i-1` divided by `i`, and `bestProfit` equal to the
running best of the profits of runs `1..i-1` (`-Infinity`, modelled
`none`, before any completed run) — the aggregates lag the current run by
one write; a skipped iteration increments `runCount` without writing a
summary; a later equal profit never replaces an existing best (strict
improvement only, so `bestConfigHash` also stays); and across any event
sequence the `bestProfit` field of the written summaries never
decreases. -/
theorem c2_amended :
    (∀ (ctx : SessionCtx) (runs : List (ℚ × String)) (i : ℕ) (p : ℚ) (h : String),
       runs[i]? = some (p, h) →
       ((runSequence ctx initLoopState (completedEvents runs)).2)[i]? =
         some (iterationSummary ctx 0 (stateAfter initLoopState (runs.take i)) p h) ∧
       (iterationSummary ctx 0 (stateAfter initLoopState (runs.take i)) p h).runCount
         = i + 1 ∧
       (iterationSummary ctx 0 (stateAfter initLoopState (runs.take i)) p h).completedRuns
         = i + 1 ∧
       (iterationSummary ctx 0 (stateAfter initLoopState (runs.take i)) p h).avgProfit
         = (profitsOf (runs.take i)).sum / ((i : ℚ) + 1) ∧
       (iterationSummary ctx 0 (stateAfter initLoopState (runs.take i)) p h).bestProfit
         = runningBest (profitsOf (runs.take i))) ∧
    (∀ (ctx : SessionCtx) (now : ℚ) (st : LoopState),
       loopIteration ctx now st IterEvent.skipped =
         ({ st with runCount := st.runCount + 1 }, none)) ∧
    (∀ (st : LoopState) (p : ℚ) (h : String), st.bestProfit = some p →
       (completeRunState st p h).bestProfit = some p ∧
       (completeRunState st p h).bestConfigHash = st.bestConfigHash) ∧
    (∀ (ctx : SessionCtx) (st : LoopState) (events : List (IterEvent × ℚ))
       (i j : ℕ) (si sj : SessionSummary), i ≤ j →
       ((runSequence ctx st events).2)[i]? = some si →
       ((runSequence ctx st events).2)[j]? = some sj →
       obLE si.bestProfit sj.bestProfit) := by
  refine ⟨?_, ?_, ?_, ?_⟩
  · intro ctx runs i p h hc
    have hilen : i < runs.length := by
      rw [List.getElem?_eq_some] at hc
      exact hc.1
    have htake : (runs.take i).length = i := by
      simp [List.length_take]
      omega
    refine ⟨runSequence_completed_getElem runs ctx initLoopState i p h hc, ?_, ?_, ?_, ?_⟩
    · show (stateAfter initLoopState (runs.take i)).runCount + 1 = i + 1
      rw [stateAfter_runCount, htake]
      simp [initLoopState]
    · show (stateAfter initLoopState (runs.take i)).runCount + 1 = i + 1
      rw [stateAfter_runCount, htake]
      simp [initLoopState]
    · show (stateAfter initLoopState (runs.take i)).totalProfit /
          (((stateAfter initLoopState (runs.take i)).runCount + 1 : ℕ) : ℚ) = _
      rw [stateAfter_totalProfit, stateAfter_runCount, htake]
      simp [initLoopState]
    · show (stateAfter initLoopState (runs.take i)).bestProfit = _
      rw [stateAfter_bestProfit]
      simp [initLoopState, runningBest]
  · intro ctx now st; rfl
  · intro st p h hb
    constructor <;> simp [completeRunState, hb, lt_irrefl]
  · intro ctx st events i j si sj hij hi hj
    rcases lt_or_eq_of_le hij with hlt | heq
    · rw [List.getElem?_eq_some] at hi hj
      obtain ⟨hi1, hi2⟩ := hi
      obtain ⟨hj1, hj2⟩ := hj
      have hp := runSequence_pairwise events ctx st
      rw [List.pairwise_iff_getElem] at hp
      have hx := hp i j hi1 hj1 hlt
      rw [hi2, hj2] at hx
      exact hx
    · subst heq
      rw [hi] at hj
      injection hj with hj
      subst hj
      exact obLE_refl _

/-- C2 witness: on the two completed runs with profits 10 and 25, the
second summary equals the one built from the state after the first run,
with `runCount = 2`, `avgProfit = 10` and `bestProfit = 10`; and a
repeat of an already-best profit leaves the best configuration in
place. -/
theorem c2_witness :
    ((runSequence c2Ctx initLoopState
        (completedEvents [((10 : ℚ), "a"), (25, "b")])).2)[1]? =
      some (iterationSummary c2Ctx 0
        (stateAfter initLoopState ([((10 : ℚ), "a"), (25, "b")].take 1)) 25 "b") ∧
    (iterationSummary c2Ctx 0
        (stateAfter initLoopState ([((10 : ℚ), "a"), (25, "b")].take 1)) 25 "b").runCount
      = 2 ∧
    (completeRunState c2BestState 10 "zz").bestConfigHash = some "a" := by
  have h1 := c2_amended.1 c2Ctx [((10 : ℚ), "a"), (25, "b")] 1 25 "b" (by rfl)
  have h2 := c2_amended.2.2.1 c2BestState 10 "zz" rfl
  exact ⟨h1.1, h1.2.1, h2.2⟩

/-! ## C3 -/

/-- C3, counterexample: in a run whose single position is opened at step 1
and never closed by the strategy, the flush synthesizes a close (one
trade in the list), and that synthesized trade is counted: the computed
performance has `numTrades = 1`, not 0, and the zero realized-PnL delta
of the synthesized close counts as a loss — the still-open position is
not excluded from `numTrades` and the win/loss counters. -/
theorem c3_counterexample :
    (detectAndFlush c3Steps 1 110).1.length = 1 ∧
    (runPerformance c3Steps 1 110 1000 500).numTrades = 1 ∧
    (runPerformance c3Steps 1 110 1000 500).numTrades ≠ 0 ∧
    (runPerformance c3Steps 1 110 1000 500).losses = 1 ∧
    (runPerformance c3Steps 1 110 1000 500).losses ≠ 0 := by
  refine ⟨?_, ?_, ?_, ?_, ?_⟩ <;>
    norm_num [runPerformance, detectAndFlush, runDetector, detectStep, flushOpen,
      c3Steps, initDetectState, newOpenTrade, closeTrade, jsign, computePerformance,
      perfFold, perfStep, orOne]

/-- C3, amended: when a position is still open at the end of the data
and a trade record is open, the flush synthesizes a close from the final
candle's timestamp and close price (so the run's trade list is fully
closed), with realized PnL the delta of the running realized-PnL field,
and reports the open-position snapshot; the synthesized trade is included
in `numTrades`, `winRate` and the win/loss counters like any closed
trade, while the separately passed open-position snapshot's
marked-to-final-price unrealized PnL adds one entry to the equity-curve
return series and its amount to the profit, but changes no trade
counter. -/
theorem c3_amended :
    (∀ (st : DetectState) (t : Trade) (finalPos : PositionSnapshot) (lastTs lastClose : ℚ),
       st.openTrade = some t → finalPos.size ≠ 0 →
       (flushOpen st finalPos lastTs lastClose).1 =
         st.trades ++ [synthClose t finalPos st.prevPos lastTs lastClose] ∧
       (flushOpen st finalPos lastTs lastClose).2 =
         some { entryPrice := t.entryPrice, entryTimestamp := t.entryTimestamp,
                size := t.entrySize, currentPrice := lastClose,
                currentTimestamp := lastTs }) ∧
    (∀ (trades : List Trade) (ib fb : ℚ) (op : OpenPosition), op.size ≠ 0 →
       (computePerformance trades ib fb (some op)).numTrades =
         (computePerformance trades ib fb none).numTrades ∧
       (computePerformance trades ib fb (some op)).wins =
         (computePerformance trades ib fb none).wins ∧
       (computePerformance trades ib fb (some op)).losses =
         (computePerformance trades ib fb none).losses ∧
       (computePerformance trades ib fb (some op)).winRate =
         (computePerformance trades ib fb none).winRate ∧
       (computePerformance trades ib fb (some op)).returns =
         (computePerformance trades ib fb none).returns ++
           [(op.currentPrice - op.entryPrice) * op.size / orOne (op.size * op.entryPrice)] ∧
       (computePerformance trades ib fb (some op)).profit =
         (computePerformance trades ib fb none).profit +
           (op.currentPrice - op.entryPrice) * op.size) := by
  constructor
  · intro st t finalPos lastTs lastClose hot hnz
    constructor <;> simp [flushOpen, synthClose, hot, hnz]
  · intro trades ib fb op hnz
    refine ⟨rfl, rfl, rfl, rfl, ?_, ?_⟩
    · simp [computePerformance, hnz]
    · simp only [computePerformance, hnz, ne_eq, not_false_eq_true, ite_true]
      ring

/-- C3 witness: the flush and the open-position accounting instantiated
on the concrete still-open run — the synthesized close carries the final
candle's timestamp 1 and close 110, and the open-position snapshot leaves
`numTrades` unchanged while adding its unrealized PnL to the profit. -/
theorem c3_witness :
    (flushOpen (runDetector c3Steps)
        { size := 5, entryPrice := 100, realizedPnl := 0 } 1 110).2 =
      some { entryPrice := 100, entryTimestamp := 1, size := 5,
             currentPrice := 110, currentTimestamp := 1 } ∧
    (computePerformance [] 1000 500
        (some { entryPrice := 100, entryTimestamp := 1, size := 5,
                currentPrice := 110, currentTimestamp := 1 })).numTrades =
      (computePerformance [] 1000 500 none).numTrades := by
  constructor
  · have h := (c3_amended.1 (runDetector c3Steps) (newOpenTrade c5OpenStep)
      { size := 5, entryPrice := 100, realizedPnl := 0 } 1 110
      (by norm_num [runDetector, detectStep, c3Steps, initDetectState, newOpenTrade,
        c5OpenStep, jsign]) (by norm_num)).2
    rw [h]
    norm_num [newOpenTrade, c5OpenStep]
  · exact (c3_amended.2 [] 1000 500
      { entryPrice := 100, entryTimestamp := 1, size := 5,
        currentPrice := 110, currentTimestamp := 1 } (by norm_num)).1

/-! ## C10 -/

/-- C10: `SessionRegistry.updateSession` is total over every driver
outcome — success yields `true`, and both a reported failure and a thrown
driver error are converted to `false`; no context, summary, or driver
behaviour makes it throw. -/
theorem c10_update_never_throws :
    ∀ (ctx : SessionCtx) (s : SessionSummary) (d : String → SessionSummary → SetOutcome),
      updateSession ctx s d = decide (d (sessionKey ctx) s = SetOutcome.success) := by
  intro ctx s d
  cases h : d (sessionKey ctx) s <;> simp [updateSession, h]

end Chimera
